import Mathlib

/-!
Shallow embedding of `src/assets/app.js` (landing-page bootstrapper).

JavaScript runtime values that can occur in this program (values produced by
`JSON.parse`, plus `undefined` as the result of absent-property lookups) are
modelled by `JSValue`.  Numbers are modelled as integers: the program performs
no arithmetic, and every number that the claims exercise is integral.  Object
fields are modelled as an insertion-ordered association list with distinct
keys, which is what `JSON.parse` produces.  Strings are modelled at the
Unicode-scalar level (`Char`), not at the UTF-16 code-unit level.

Errors thrown by the program are either `new Error(message)` values
(`JsErr.error`) or runtime `TypeError`s (`JsErr.typeError`), e.g. reading a
property of `null`/`undefined` or calling `.replace` on a non-string.

The DOM fragment built by `render` is modelled by the `Dom` tree; the page
(the `document.title`, the mount point `#app`, its `aria-busy` attribute and
the `console.error` diagnostic channel) is modelled by `PageState`.
-/

inductive JSValue where
  | undefined
  | null
  | bool (b : Bool)
  | num (n : Int)
  | str (s : String)
  | arr (xs : List JSValue)
  | obj (fields : List (String × JSValue))

/-- Loose equality with null (`v == null`), true exactly for `null` and `undefined`. -/
def looseEqNull : JSValue → Bool
  | .null => true
  | .undefined => true
  | _ => false

/-- JavaScript truthiness of a value (`if (v)`).  `NaN` does not arise: the
modelled program performs no arithmetic on numbers. -/
def truthy : JSValue → Bool
  | .undefined => false
  | .null => false
  | .bool b => b
  | .num n => n != 0
  | .str s => s != ""
  | .arr _ => true
  | .obj _ => true

/-- Whitespace trimming (`String.prototype.trim`), implemented over the
character list so that it evaluates by kernel reduction.  The ASCII whitespace
characters recognised by `Char.isWhitespace` cover every input exercised here. -/
def jsTrim (s : String) : String :=
  String.mk (((s.data.dropWhile Char.isWhitespace).reverse.dropWhile Char.isWhitespace).reverse)

/-- Joining of strings with commas (`Array.prototype.join(',')`). -/
def joinComma : List String → String
  | [] => ""
  | [s] => s
  | s :: rest => s ++ "," ++ joinComma rest

mutual

/-- Conversion of a value to a string (`String(v)`, template literals, and the
DOM `textContent`/`setAttribute` setters).  Arrays stringify by joining their
elements with commas, with `null`/`undefined` elements becoming empty strings;
plain objects stringify as `[object Object]`. -/
def jsToString : JSValue → String
  | .undefined => "undefined"
  | .null => "null"
  | .bool true => "true"
  | .bool false => "false"
  | .num n => toString n
  | .str s => s
  | .arr xs => joinComma (jsArrParts xs)
  | .obj _ => "[object Object]"

/-- Stringification of the elements of an array for `Array.prototype.join`. -/
def jsArrParts : List JSValue → List String
  | [] => []
  | x :: rest =>
    (match x with
     | .null => ""
     | .undefined => ""
     | v => jsToString v) :: jsArrParts rest

end

/-- Parsing of a digit string to a natural number; `none` when the list is
empty or contains a non-digit. -/
def charsToNat : List Char → Option Nat
  | [] => none
  | cs => go cs 0
where
  go : List Char → Nat → Option Nat
    | [], acc => some acc
    | c :: rest, acc =>
      if c.isDigit then go rest (acc * 10 + (c.toNat - 48)) else none

/-- Canonical array-index interpretation of a property key: `some n` exactly
when the key is the canonical decimal numeral of `n` (so `"00"` or `"1a"` are
not indices), as in the JavaScript array-index lookup rule. -/
def canonicalIndex (key : String) : Option Nat :=
  match charsToNat key.data with
  | some n => if toString n = key then some n else none
  | none => none

/-- Property read on a string primitive: `length` and canonical character
indices; every other key reads as `undefined`. -/
def strProp (s : String) (key : String) : JSValue :=
  if key = "length" then .num s.data.length
  else
    match canonicalIndex key with
    | some n =>
      match s.data.get? n with
      | some c => .str (String.mk [c])
      | none => .undefined
    | none => .undefined

/-- Property read on an array: `length` and canonical element indices; every
other key reads as `undefined`. -/
def arrProp (xs : List JSValue) (key : String) : JSValue :=
  if key = "length" then .num xs.length
  else
    match canonicalIndex key with
    | some n => (xs.get? n).getD .undefined
    | none => .undefined

/-- Errors thrown by the program: `new Error(message)` or a runtime `TypeError`. -/
inductive JsErr where
  | error (msg : String)
  | typeError (msg : String)
deriving DecidableEq

/-- Property access `v[key]`: throws a `TypeError` on `null`/`undefined`,
reads `undefined` for absent keys on every other kind of value. -/
def jsGetProp (v : JSValue) (key : String) : Except JsErr JSValue :=
  match v with
  | .undefined => .error (.typeError ("Cannot read properties of undefined (reading " ++ key ++ ")"))
  | .null => .error (.typeError ("Cannot read properties of null (reading " ++ key ++ ")"))
  | .bool _ => .ok .undefined
  | .num _ => .ok .undefined
  | .str s => .ok (strProp s key)
  | .arr xs => .ok (arrProp xs key)
  | .obj fields => .ok (((fields.find? (fun f => f.1 = key)).map (fun f => f.2)).getD .undefined)

/-- Splitting of a character list on a separator (`String.prototype.split`):
the result always has one more part than there are separators, so the empty
string splits to `[""]`. -/
def splitOnChar (sep : Char) : List Char → List String
  | [] => [""]
  | c :: rest =>
    let r := splitOnChar sep rest
    if c = sep then "" :: r
    else
      match r with
      | [] => [String.mk [c]]
      | s :: ss => String.mk (c :: s.data) :: ss

/-- One step of the `reduce` inside `getPath`:
`(acc, key) => (acc == null ? acc : acc[key])`, with a thrown error aborting
the remaining steps. -/
def getPathStep (acc : Except JsErr JSValue) (key : String) : Except JsErr JSValue :=
  match acc with
  | .error e => .error e
  | .ok v => if looseEqNull v then .ok v else jsGetProp v key

/-- Dot-path lookup `getPath(object, dotPath)` from the source:
`dotPath.split('.').reduce((acc, key) => (acc == null ? acc : acc[key]), object)`.
The result is `Except`-valued because each step performs a property access
that could in principle throw; `getPath_never_raises` shows it never does. -/
def getPathE (object : JSValue) (dotPath : String) : Except JsErr JSValue :=
  (splitOnChar '.' dotPath.data).foldl getPathStep (.ok object)

/-- Value of a dot-path lookup, defaulting the (impossible) thrown case to
`undefined`; used to state claims about `getPath` results. -/
def getPathD (object : JSValue) (dotPath : String) : JSValue :=
  match getPathE object dotPath with
  | .ok v => v
  | .error _ => .undefined

/-- Required dot-paths checked by `validateI18n`, in source order. -/
def requiredPaths : List String :=
  ["site.title", "site.tagline", "sections.projects", "labels.visit", "footer.copyright", "projects"]

/-- First loop of `validateI18n`: throw `Missing i18n key: <path>` at the first
required path that resolves to a nullish value. -/
def checkPaths (i18n : JSValue) : List String → Except JsErr Unit
  | [] => .ok ()
  | p :: rest =>
    match getPathE i18n p with
    | .error e => .error e
    | .ok v =>
      if looseEqNull v then .error (.error ("Missing i18n key: " ++ p))
      else checkPaths i18n rest

/-- Inner check of the per-project loop of `validateI18n`:
`if (project[key] == null || String(project[key]).trim() === '') throw ...`. -/
def checkField (index : Nat) (project : JSValue) (key : String) : Except JsErr Unit :=
  match jsGetProp project key with
  | .error e => .error e
  | .ok v =>
    if looseEqNull v || jsTrim (jsToString v) = "" then
      .error (.error ("Project at index " ++ toString index ++ " is missing key: " ++ key))
    else .ok ()

/-- Per-entry check of `validateI18n`: `codename` before `description`. -/
def checkEntry (index : Nat) (project : JSValue) : Except JsErr Unit :=
  match checkField index project "codename" with
  | .error e => .error e
  | .ok _ => checkField index project "description"

/-- Indexed loop of `validateI18n` over `i18n.projects.entries()`. -/
def checkEntries (index : Nat) : List JSValue → Except JsErr Unit
  | [] => .ok ()
  | p :: rest =>
    match checkEntry index p with
    | .error e => .error e
    | .ok _ => checkEntries (index + 1) rest

/-- The validator `validateI18n(i18n)` from the source: required-path checks in
order, then the `Array.isArray(i18n.projects)` shape check, then the per-entry
field checks. -/
def validateI18n (i18n : JSValue) : Except JsErr Unit :=
  match checkPaths i18n requiredPaths with
  | .error e => .error e
  | .ok _ =>
    match jsGetProp i18n "projects" with
    | .error e => .error e
    | .ok projects =>
      match projects with
      | .arr ps => checkEntries 0 ps
      | _ => .error (.error "i18n.projects must be an array")

/-- DOM nodes built by the renderer: element nodes with an ordered attribute
list and ordered children, and text nodes.  Assigning `textContent` inserts a
text node; `className` assignment and `setAttribute` both appear as
attributes. -/
inductive Dom where
  | text (s : String)
  | elem (tag : String) (attrs : List (String × String)) (children : List Dom)

/-- The element-creation utility `el(tag, options)`: sets `className` when the
given class string is truthy, sets `textContent` when the text option is not
nullish, and sets each attribute whose value is not nullish, stringified. -/
def el (tag : String) (className : Option String) (text : JSValue)
    (attrs : List (String × JSValue)) : Dom :=
  let classAttrs :=
    match className with
    | some c => if c = "" then [] else [("class", c)]
    | none => []
  let textChildren := if looseEqNull text then [] else [Dom.text (jsToString text)]
  Dom.elem tag
    (classAttrs ++ (attrs.filter (fun a => !looseEqNull a.2)).map (fun a => (a.1, jsToString a.2)))
    textChildren

/-- Appending of child nodes (`node.append(...)`), after any text content. -/
def domAppend (d : Dom) (more : List Dom) : Dom :=
  match d with
  | .elem tag attrs children => .elem tag attrs (children ++ more)
  | .text s => .text s

/-- Card construction for one entry of the projects loop in `render`: an
`article` with the codename heading, the description paragraph, and — when
`project.url` is truthy — an action link labelled by `labels.visit` opening in
a new context (`target="_blank"`, `rel="noopener noreferrer"`) with accessible
label `labels.visit ++ ": " ++ codename`. -/
def renderCard (i18n : JSValue) (project : JSValue) : Except JsErr Dom :=
  match jsGetProp project "codename" with
  | .error e => .error e
  | .ok codename =>
    match jsGetProp project "description" with
    | .error e => .error e
    | .ok description =>
      let name := el "h3" (some "project-name") codename []
      let desc := el "p" (some "project-desc") description []
      match jsGetProp project "url" with
      | .error e => .error e
      | .ok url =>
        if truthy url then
          match getPathE i18n "labels.visit" with
          | .error e => .error e
          | .ok visitLabel =>
            let link := el "a" (some "button-link") visitLabel
              [("href", url), ("target", .str "_blank"), ("rel", .str "noopener noreferrer"),
               ("aria-label", .str (jsToString visitLabel ++ ": " ++ jsToString codename))]
            let actions := domAppend (el "div" (some "project-actions") .undefined []) [link]
            .ok (domAppend (el "article" (some "project-card") .undefined []) [name, desc, actions])
        else
          .ok (domAppend (el "article" (some "project-card") .undefined []) [name, desc])

/-- The projects loop of `render`, producing one card per entry in order. -/
def renderCards (i18n : JSValue) : List JSValue → Except JsErr (List Dom)
  | [] => .ok []
  | p :: rest =>
    match renderCard i18n p with
    | .error e => .error e
    | .ok card =>
      match renderCards i18n rest with
      | .error e => .error e
      | .ok cards => .ok (card :: cards)

/-- Elements iterated by a `for ... of` loop: arrays yield their elements,
strings yield their characters, everything else is not iterable. -/
def iterableElems : JSValue → Option (List JSValue)
  | .arr xs => some xs
  | .str s => some (s.data.map (fun c => .str (String.mk [c])))
  | _ => none

/-- Header block of `render`: the `h1` title and `p` tagline inside `header`. -/
def buildHeader (i18n : JSValue) : Except JsErr Dom :=
  match getPathE i18n "site.title" with
  | .error e => .error e
  | .ok titleV =>
    match getPathE i18n "site.tagline" with
    | .error e => .error e
    | .ok taglineV =>
      let title := el "h1" (some "title") titleV []
      let tagline := el "p" (some "tagline") taglineV []
      .ok (domAppend (el "header" (some "site-header") .undefined []) [title, tagline])

/-- Projects section of `render`: the `h2` heading from `sections.projects`
and the grid of cards built by the `for ... of i18n.projects` loop. -/
def buildProjectsSection (i18n : JSValue) : Except JsErr Dom :=
  match getPathE i18n "sections.projects" with
  | .error e => .error e
  | .ok sectionTitleV =>
    match jsGetProp i18n "projects" with
    | .error e => .error e
    | .ok projects =>
      match iterableElems projects with
      | none => .error (.typeError "i18n.projects is not iterable")
      | some ps =>
        match renderCards i18n ps with
        | .error e => .error e
        | .ok cards =>
          let sectionTitle := el "h2" (some "section-title") sectionTitleV []
          let grid := domAppend (el "div" (some "projects-grid") .undefined []) cards
          .ok (domAppend (el "section" (some "projects") .undefined []) [sectionTitle, grid])

/-- Replacement of the first occurrence of a pattern
(`String.prototype.replace` with a string pattern), over character lists. -/
def replaceFirstChars (pat rep : List Char) : List Char → List Char
  | [] => if pat = [] then rep else []
  | c :: cs =>
    if pat.isPrefixOf (c :: cs) then rep ++ (c :: cs).drop pat.length
    else c :: replaceFirstChars pat rep cs

/-- First-occurrence string replacement, as used for the copyright year. -/
def jsReplaceFirst (s pat rep : String) : String :=
  String.mk (replaceFirstChars pat.data rep.data s.data)

/-- Placeholder replaced by the current year in `footer.copyright`. -/
def yearToken : String := "\x7byear\x7d"

/-- Footer block of `render`: `footer.copyright` with the first `\x7byear\x7d`
replaced by the stringified current year.  Calling `.replace` on a non-string
value throws a `TypeError`. -/
def buildFooter (i18n : JSValue) (year : Int) : Except JsErr Dom :=
  match getPathE i18n "footer.copyright" with
  | .error e => .error e
  | .ok copyrightTmpl =>
    match copyrightTmpl with
    | .str s =>
      let copyright := jsReplaceFirst s yearToken (toString year)
      .ok (domAppend (el "footer" (some "site-footer") .undefined [])
            [el "div" none (.str copyright) []])
    | _ => .error (.typeError "copyrightTmpl.replace is not a function")

/-- Detached-tree construction of `render`: the `div.container` holding the
header, the projects section and the footer, in order. -/
def buildContainer (i18n : JSValue) (year : Int) : Except JsErr Dom :=
  match buildHeader i18n with
  | .error e => .error e
  | .ok header =>
    match buildProjectsSection i18n with
    | .error e => .error e
    | .ok projectsSection =>
      match buildFooter i18n year with
      | .error e => .error e
      | .ok footer =>
        .ok (domAppend (el "div" (some "container") .undefined [])
              [header, projectsSection, footer])

/-- Observable page state: the document title, the mount point's children and
`aria-busy` attribute, and the `console.error` diagnostic channel. -/
structure PageState where
  title : String
  mountChildren : List Dom
  ariaBusy : Option String
  consoleErrors : List JsErr

/-- The renderer `render(i18n)` as a transition on the page state, with the
year supplied for `new Date().getFullYear()`.  It first assigns
`document.title`, then builds the whole tree detached; only on success does it
atomically replace the mount point's children and clear `aria-busy`.  A throw
during construction leaves the mount point untouched. -/
def renderRun (i18n : JSValue) (year : Int) (st : PageState) : PageState × Option JsErr :=
  match getPathE i18n "site.title" with
  | .error e => (st, some e)
  | .ok titleV =>
    let st1 := { st with title := jsToString titleV }
    match buildContainer i18n year with
    | .error e => (st1, some e)
    | .ok container =>
      ({ st1 with mountChildren := [container], ariaBusy := some "false" }, none)

/-- Lookup in the parsed query parameters (`URLSearchParams.prototype.get`):
the value of the first pair with the given key, or `null` (here `none`). -/
def paramsGet (ps : List (String × String)) (key : String) : Option String :=
  (ps.find? (fun p => p.1 = key)).map (fun p => p.2)

/-- The guarded configuration read `cfg && cfg.key`: the config value itself
when it is falsy, otherwise its property (never a throw, since a truthy value
is not nullish). -/
def configGet (cfg : JSValue) (key : String) : JSValue :=
  if truthy cfg then
    match jsGetProp cfg key with
    | .ok v => v
    | .error _ => .undefined
  else cfg

/-- The short-circuit default `x || fallback`. -/
def jsOrDefault (x fallback : JSValue) : JSValue :=
  if truthy x then x else fallback

/-- The resolver `getLanguage()`.  `search` is the parsed query string
(`none` when `new URLSearchParams` threw, which the source swallows); `cfg` is
`window.__APP_CONFIG__` (`undefined` when absent).  The `lang` parameter is
defaulted to the empty string, trimmed, and returned when non-empty; otherwise
the configured `defaultLanguage` or the literal `"en"` is returned. -/
def getLanguage (search : Option (List (String × String))) (cfg : JSValue) : JSValue :=
  let fallback := jsOrDefault (configGet cfg "defaultLanguage") (.str "en")
  match search with
  | none => fallback
  | some ps =>
    let candidate := jsTrim ((paramsGet ps "lang").getD "")
    if candidate = "" then fallback else .str candidate

/-- Uppercase hexadecimal digit for a value below 16. -/
def hexDigitChar (n : Nat) : Char :=
  if n < 10 then Char.ofNat (48 + n) else Char.ofNat (55 + n)

/-- Characters left unencoded by `encodeURIComponent`:
ASCII alphanumerics and `-`, `_`, `.`, `!`, `~`, `*`, `(`, `)` and the
apostrophe (code 39). -/
def isURIUnreserved (c : Char) : Bool :=
  (c.isAlpha && c.toNat < 128) || c.isDigit ||
    c = '-' || c = '_' || c = '.' || c = '!' || c = '~' || c = '*' ||
    c = '(' || c = ')' || c = Char.ofNat 39

/-- Percent-encoding of one character: each UTF-8 byte as `%HH` (uppercase). -/
def percentEncodeChar (c : Char) : List Char :=
  (String.utf8EncodeChar c).foldr
    (fun b acc => '%' :: hexDigitChar (b.toNat / 16) :: hexDigitChar (b.toNat % 16) :: acc) []

/-- The `encodeURIComponent` built-in, applied to the language code when the
resource location is built. -/
def encodeURIComponent (s : String) : String :=
  String.mk (s.data.foldr
    (fun c acc => (if isURIUnreserved c then [c] else percentEncodeChar c) ++ acc) [])

/-- Base path for i18n resources: `(cfg && cfg.i18nPath) || 'i18n'`. -/
def i18nBase (cfg : JSValue) : JSValue :=
  jsOrDefault (configGet cfg "i18nPath") (.str "i18n")

/-- Resource location built by `loadI18n`:
the template literal `` `${basePath}/${encodeURIComponent(language)}.json` ``. -/
def resourceUrl (cfg language : JSValue) : String :=
  jsToString (i18nBase cfg) ++ "/" ++ encodeURIComponent (jsToString language) ++ ".json"

/-- Outcome of the single `fetch`: the response's `ok` flag and `status`, and
the result of `response.json()` (`none` when the body fails to parse). -/
structure FetchResponse where
  ok : Bool
  status : Nat
  body : Option JSValue

/-- The loader `loadI18n(language)` given the fetch outcome for the resolved
location: a non-ok response throws the resource error naming the location and
status; an unparseable body throws the malformed-JSON error naming the
language; otherwise the parsed document is returned. -/
def loadI18n (cfg language : JSValue) (response : FetchResponse) : Except JsErr JSValue :=
  let url := resourceUrl cfg language
  if !response.ok then
    .error (.error ("Failed to load i18n resource: " ++ url ++ " (" ++ toString response.status ++ ")"))
  else
    match response.body with
    | some v => .ok v
    | none => .error (.error ("Malformed i18n JSON for language: " ++ jsToString language))

/-- The body of the async IIFE in `bootstrap`: resolve the language, load,
validate, render; the first thrown error aborts the rest. -/
def pipelineRun (search : Option (List (String × String))) (cfg : JSValue)
    (response : FetchResponse) (year : Int) (st : PageState) : PageState × Option JsErr :=
  match loadI18n cfg (getLanguage search cfg) response with
  | .error e => (st, some e)
  | .ok i18n =>
    match validateI18n i18n with
    | .error e => (st, some e)
    | .ok _ => renderRun i18n year st

/-- The whole bootstrap including the trailing `.catch`: a pipeline error is
reported to `console.error` and nothing else happens. -/
def bootstrapRun (search : Option (List (String × String))) (cfg : JSValue)
    (response : FetchResponse) (year : Int) (st : PageState) : PageState :=
  match pipelineRun search cfg response year st with
  | (st1, none) => st1
  | (st1, some e) => { st1 with consoleErrors := st1.consoleErrors ++ [e] }

/-- Claim-side predicate: the field read succeeds and yields a value that is
neither nullish nor blank after stringification and trimming. -/
def fieldOkP (entry : JSValue) (key : String) : Prop :=
  ∃ v, jsGetProp entry key = .ok v ∧ looseEqNull v = false ∧ jsTrim (jsToString v) ≠ ""

/-- Claim-side predicate: the field read succeeds and yields a value that is
nullish, or blank after stringification and trimming. -/
def fieldBadP (entry : JSValue) (key : String) : Prop :=
  ∃ v, jsGetProp entry key = .ok v ∧ (looseEqNull v = true ∨ jsTrim (jsToString v) = "")

/-- Claim-side predicate: the query string parsed and carries a `lang` value
that is non-empty after trimming. -/
def usableLang (search : Option (List (String × String))) : Bool :=
  match search with
  | none => false
  | some ps =>
    match paramsGet ps "lang" with
    | none => false
    | some v => jsTrim v != ""

/-- Claim-side predicate: both required fields of a project entry read back
non-blank. -/
def entryOkP (entry : JSValue) : Prop :=
  fieldOkP entry "codename" ∧ fieldOkP entry "description"

/-- Claim-side relation between a project entry and its rendered card: the
card is an `article.project-card` whose first two children are the codename
heading and the description paragraph as literal text. -/
def cardRel (project : JSValue) (card : Dom) : Prop :=
  ∃ cn ds restCh,
    jsGetProp project "codename" = .ok cn ∧
    jsGetProp project "description" = .ok ds ∧
    card = Dom.elem "article" [("class", "project-card")]
      (Dom.elem "h3" [("class", "project-name")] [Dom.text (jsToString cn)] ::
       Dom.elem "p" [("class", "project-desc")] [Dom.text (jsToString ds)] :: restCh)

/-- Sample project entry used by concrete witnesses (Scenario B of the spec). -/
def orbitEntry : JSValue :=
  .obj [("codename", .str "Orbit"), ("description", .str "A tool"), ("url", .str "https://x.test")]

/-- Sample valid document used by concrete witnesses. -/
def sampleDoc : JSValue :=
  .obj [
    ("site", .obj [("title", .str "T"), ("tagline", .str "L")]),
    ("sections", .obj [("projects", .str "P")]),
    ("labels", .obj [("visit", .str "Visit")]),
    ("footer", .obj [("copyright", .str "(c) \x7byear\x7d Acme")]),
    ("projects", .arr [orbitEntry])]

/-- Sample pre-render page state used by concrete witnesses: static shell,
`aria-busy` still set, no diagnostics. -/
def samplePage : PageState := ⟨"", [], some "true", []⟩

/-- Document that passes validation but whose `footer.copyright` is a number,
so the renderer's `.replace` call throws. -/
def nonStringCopyrightDoc : JSValue :=
  .obj [
    ("site", .obj [("title", .str "T"), ("tagline", .str "L")]),
    ("sections", .obj [("projects", .str "P")]),
    ("labels", .obj [("visit", .str "Visit")]),
    ("footer", .obj [("copyright", .num 2024)]),
    ("projects", .arr [.obj [("codename", .str "A"), ("description", .str "B")]])]

/-- Project entry whose `url` field is present but empty (falsy). -/
def emptyUrlEntry : JSValue :=
  .obj [("codename", .str "Orbit"), ("description", .str "A tool"), ("url", .str "")]



/-! ## Basic lemmas about property access and dot-path lookup -/

lemma truthy_str (s : String) : truthy (.str s) = (s != "") := rfl

lemma looseEqNull_undefined : looseEqNull .undefined = true := rfl

lemma looseEqNull_str (s : String) : looseEqNull (.str s) = false := rfl

lemma jsToString_str (s : String) : jsToString (.str s) = s := rfl

lemma jsGetProp_ok_of_not_null (v : JSValue) (k : String) (h : looseEqNull v = false) :
    ∃ w, jsGetProp v k = .ok w := by
  cases v with
  | undefined => simp [looseEqNull] at h
  | null => simp [looseEqNull] at h
  | _ => exact ⟨_, rfl⟩

lemma looseEqNull_false_of_getProp_ok (v w : JSValue) (k : String)
    (h : jsGetProp v k = .ok w) : looseEqNull v = false := by
  cases v <;> first
    | rfl
    | simp [jsGetProp] at h

lemma looseEqNull_false_of_truthy (v : JSValue) (h : truthy v = true) :
    looseEqNull v = false := by
  cases v <;> simp_all [truthy, looseEqNull]

lemma foldl_getPathStep_ok (keys : List String) :
    ∀ v : JSValue, ∃ w, keys.foldl getPathStep (.ok v) = .ok w := by
  induction keys with
  | nil => intro v; exact ⟨v, rfl⟩
  | cons k rest ih =>
    intro v
    rw [List.foldl_cons]
    cases hv : looseEqNull v with
    | true =>
      have hstep : getPathStep (.ok v) k = .ok v := by simp [getPathStep, hv]
      rw [hstep]; exact ih v
    | false =>
      obtain ⟨w, hw⟩ := jsGetProp_ok_of_not_null v k hv
      have hstep : getPathStep (.ok v) k = .ok w := by simp [getPathStep, hv, hw]
      rw [hstep]; exact ih w

lemma getPathE_eq (o : JSValue) (p : String) : getPathE o p = .ok (getPathD o p) := by
  obtain ⟨w, hw⟩ := foldl_getPathStep_ok (splitOnChar '.' p.data) o
  have h2 : getPathE o p = .ok w := hw
  unfold getPathD
  rw [h2]

lemma foldl_getPathStep_null (v : JSValue) (h : looseEqNull v = true) :
    ∀ keys : List String, keys.foldl getPathStep (.ok v) = .ok v := by
  intro keys
  induction keys with
  | nil => rfl
  | cons k rest ih =>
    rw [List.foldl_cons]
    have hstep : getPathStep (.ok v) k = .ok v := by simp [getPathStep, h]
    rw [hstep]; exact ih

/-- C9: `getPath` splits the dot-path and indexes key-by-key (its definition
is exactly that fold), it never raises an error on any input — the fold always
yields an `ok` result, even across primitive intermediates — and once the
accumulator is an absent value every remaining step returns it unchanged. -/
theorem getPath_never_raises (object : JSValue) (dotPath : String) :
    getPathE object dotPath = .ok (getPathD object dotPath) ∧
    getPathE object dotPath = (splitOnChar '.' dotPath.data).foldl getPathStep (.ok object) ∧
    (∀ (v : JSValue) (keys : List String), looseEqNull v = true →
      keys.foldl getPathStep (.ok v) = .ok v) :=
  ⟨getPathE_eq object dotPath, rfl, fun v keys hv => foldl_getPathStep_null v hv keys⟩

/-- Witness for C9 at a primitive object and a nullish intermediate. -/
theorem getPath_never_raises_witness :
    getPathE (.num 5) "a.b" = .ok (getPathD (.num 5) "a.b") ∧
    ["a", "b"].foldl getPathStep (.ok .null) = .ok .null :=
  ⟨(getPath_never_raises (.num 5) "a.b").1,
   (getPath_never_raises (.num 5) "a.b").2.2 .null ["a", "b"] rfl⟩

/-! ## The validator: missing required paths (C1) -/

lemma checkPaths_missing (i18n : JSValue) :
    ∀ (l : List String) (p : String),
      l.find? (fun q => looseEqNull (getPathD i18n q)) = some p →
      checkPaths i18n l = .error (.error ("Missing i18n key: " ++ p)) := by
  intro l
  induction l with
  | nil => intro p h; simp [List.find?] at h
  | cons q rest ih =>
    intro p h
    cases hq : looseEqNull (getPathD i18n q) with
    | true =>
      have hp : q = p := by simpa [List.find?_cons, hq] using h
      subst hp
      simp [checkPaths, getPathE_eq i18n q, hq]
    | false =>
      have h2 : rest.find? (fun r => looseEqNull (getPathD i18n r)) = some p := by
        simpa [List.find?_cons, hq] using h
      simp [checkPaths, getPathE_eq i18n q, hq]
      exact ih p h2

/-- C1: whenever at least one of the six required dot-paths resolves to an
absent value, `validateI18n` throws the `Missing i18n key` error naming the
first such path in the listed order — regardless of the document's shape
otherwise, so before any sequence-shape or per-entry check — and in
particular never accepts the document. -/
theorem validateI18n_first_missing (i18n : JSValue) (p : String)
    (h : requiredPaths.find? (fun q => looseEqNull (getPathD i18n q)) = some p) :
    validateI18n i18n = .error (.error ("Missing i18n key: " ++ p)) := by
  unfold validateI18n
  rw [checkPaths_missing i18n requiredPaths p h]

/-- Witness for C1: a document whose first absent required path is
`site.tagline` is rejected with exactly that path's error. -/
theorem validateI18n_first_missing_witness :
    validateI18n (.obj [("site", .obj [("title", .str "T")]), ("projects", .arr [])]) =
      .error (.error "Missing i18n key: site.tagline") :=
  validateI18n_first_missing _ "site.tagline" rfl

/-! ## The validator: per-entry field checks (C4, C10) -/

lemma checkField_ok_of (i : Nat) (e : JSValue) (k : String) (h : fieldOkP e k) :
    checkField i e k = .ok () := by
  obtain ⟨v, hv, hnull, hne⟩ := h
  unfold checkField
  rw [hv]
  simp [hnull, hne]

lemma checkField_bad_of (i : Nat) (e : JSValue) (k : String) (h : fieldBadP e k) :
    checkField i e k = .error (.error ("Project at index " ++ toString i ++ " is missing key: " ++ k)) := by
  obtain ⟨v, hv, hbad⟩ := h
  unfold checkField
  rw [hv]
  rcases hbad with h1 | h1 <;> simp [h1]

lemma checkEntry_ok_of (i : Nat) (e : JSValue) (h : entryOkP e) :
    checkEntry i e = .ok () := by
  unfold checkEntry
  rw [checkField_ok_of i e "codename" h.1]
  exact checkField_ok_of i e "description" h.2

lemma checkEntries_ok_of_all : ∀ (ps : List JSValue) (i : Nat),
    (∀ e ∈ ps, entryOkP e) → checkEntries i ps = .ok () := by
  intro ps
  induction ps with
  | nil => intro i _; rfl
  | cons e rest ih =>
    intro i h
    unfold checkEntries
    rw [checkEntry_ok_of i e (h e (by simp))]
    exact ih (i + 1) (fun x hx => h x (by simp [hx]))

lemma checkEntries_bad : ∀ (pre : List JSValue) (i : Nat) (bad : JSValue) (rest : List JSValue) (f : String),
    (∀ e ∈ pre, entryOkP e) →
    ((f = "codename" ∧ fieldBadP bad "codename") ∨
     (f = "description" ∧ fieldOkP bad "codename" ∧ fieldBadP bad "description")) →
    checkEntries i (pre ++ bad :: rest) =
      .error (.error ("Project at index " ++ toString (i + pre.length) ++ " is missing key: " ++ f)) := by
  intro pre
  induction pre with
  | nil =>
    intro i bad rest f _ hbad
    rw [List.nil_append]
    rcases hbad with ⟨hf, hb⟩ | ⟨hf, hok, hb⟩
    · subst hf
      simp [checkEntries, checkEntry, checkField_bad_of i bad "codename" hb]
    · subst hf
      simp [checkEntries, checkEntry, checkField_ok_of i bad "codename" hok,
            checkField_bad_of i bad "description" hb]
  | cons e pre' ih =>
    intro i bad rest f hpre hbad
    have hstep : checkEntries i ((e :: pre') ++ bad :: rest) =
        checkEntries (i + 1) (pre' ++ bad :: rest) := by
      rw [List.cons_append]
      simp [checkEntries, checkEntry_ok_of i e (hpre e (by simp))]
    rw [hstep, ih (i + 1) bad rest f (fun x hx => hpre x (by simp [hx])) hbad]
    have harith : i + 1 + pre'.length = i + (e :: pre').length := by
      simp [List.length_cons]; omega
    rw [harith]

/-- C4: when all required paths are present and `projects` is an array, and an
entry's `codename` or `description` reads back nullish or blank after
stringification and trimming — the first such field in index order, checking
`codename` before `description` within an entry — `validateI18n` throws the
project-field error naming that entry's index and that field. -/
theorem validateI18n_missing_project_field (i18n bad : JSValue) (pre rest : List JSValue) (f : String)
    (hpaths : ∀ p ∈ requiredPaths, looseEqNull (getPathD i18n p) = false)
    (hproj : jsGetProp i18n "projects" = .ok (.arr (pre ++ bad :: rest)))
    (hpre : ∀ e ∈ pre, entryOkP e)
    (hbad : (f = "codename" ∧ fieldBadP bad "codename") ∨
            (f = "description" ∧ fieldOkP bad "codename" ∧ fieldBadP bad "description")) :
    validateI18n i18n =
      .error (.error ("Project at index " ++ toString pre.length ++ " is missing key: " ++ f)) := by
  have hcp : checkPaths i18n requiredPaths = .ok () := by
    have : ∀ l : List String, (∀ p ∈ l, looseEqNull (getPathD i18n p) = false) →
        checkPaths i18n l = .ok () := by
      intro l
      induction l with
      | nil => intro _; rfl
      | cons q qs ih =>
        intro hl
        simp [checkPaths, getPathE_eq i18n q, hl q (by simp)]
        exact ih (fun x hx => hl x (by simp [hx]))
    exact this requiredPaths hpaths
  unfold validateI18n
  rw [hcp, hproj]
  have := checkEntries_bad pre 0 bad rest f hpre hbad
  simpa using this

/-- Witness for C4: the second entry's blank codename is reported at index 1. -/
theorem validateI18n_missing_project_field_witness :
    validateI18n (.obj [
      ("site", .obj [("title", .str "T"), ("tagline", .str "L")]),
      ("sections", .obj [("projects", .str "P")]),
      ("labels", .obj [("visit", .str "V")]),
      ("footer", .obj [("copyright", .str "c")]),
      ("projects", .arr [.obj [("codename", .str "A"), ("description", .str "B")],
                         .obj [("codename", .str "  "), ("description", .str "B")]])]) =
      .error (.error "Project at index 1 is missing key: codename") :=
  validateI18n_missing_project_field _ _
    [.obj [("codename", .str "A"), ("description", .str "B")]] [] "codename"
    (by decide)
    rfl
    (by
      intro e he
      simp at he
      subst he
      exact ⟨⟨.str "A", rfl, rfl, by decide⟩, ⟨.str "B", rfl, rfl, by decide⟩⟩)
    (.inl ⟨rfl, ⟨.str "  ", rfl, .inr (by decide)⟩⟩)

/-- C10: the validator checks presence, not type — any document whose six
required paths resolve to non-nullish values, whose `projects` is an array,
and whose entries' `codename` and `description` stringify and trim to
non-empty text is accepted, even when schema-string fields hold non-string
values such as numbers. -/
theorem validateI18n_presence_only (i18n : JSValue) (ps : List JSValue)
    (hpaths : ∀ p ∈ requiredPaths, looseEqNull (getPathD i18n p) = false)
    (hproj : jsGetProp i18n "projects" = .ok (.arr ps))
    (hentries : ∀ e ∈ ps, entryOkP e) :
    validateI18n i18n = .ok () := by
  have hcp : checkPaths i18n requiredPaths = .ok () := by
    have : ∀ l : List String, (∀ p ∈ l, looseEqNull (getPathD i18n p) = false) →
        checkPaths i18n l = .ok () := by
      intro l
      induction l with
      | nil => intro _; rfl
      | cons q qs ih =>
        intro hl
        simp [checkPaths, getPathE_eq i18n q, hl q (by simp)]
        exact ih (fun x hx => hl x (by simp [hx]))
    exact this requiredPaths hpaths
  unfold validateI18n
  rw [hcp, hproj]
  exact checkEntries_ok_of_all ps 0 hentries

/-- Witness for C10: a document with numeric `site.title`, `footer.copyright`
and `codename` values is accepted. -/
theorem validateI18n_presence_only_witness :
    validateI18n (.obj [
      ("site", .obj [("title", .num 7), ("tagline", .str "L")]),
      ("sections", .obj [("projects", .str "P")]),
      ("labels", .obj [("visit", .str "V")]),
      ("footer", .obj [("copyright", .num 3)]),
      ("projects", .arr [.obj [("codename", .num 1), ("description", .str "x")]])]) = .ok () :=
  validateI18n_presence_only _ [.obj [("codename", .num 1), ("description", .str "x")]]
    (by decide)
    rfl
    (by
      intro e he
      simp at he
      subst he
      exact ⟨⟨.num 1, rfl, rfl, by decide⟩, ⟨.str "x", rfl, rfl, by decide⟩⟩)

/-! ## The renderer: round-trip of validated documents (C2, C8) -/

lemma checkField_ok_elim (i : Nat) (e : JSValue) (k : String)
    (h : checkField i e k = .ok ()) : fieldOkP e k := by
  unfold checkField at h
  cases hg : jsGetProp e k with
  | error e2 => rw [hg] at h; simp at h
  | ok v =>
    rw [hg] at h
    have h3 : (if (looseEqNull v || decide (jsTrim (jsToString v) = "")) = true then
        (Except.error (JsErr.error ("Project at index " ++ toString i ++ " is missing key: " ++ k))
          : Except JsErr Unit)
      else .ok ()) = .ok () := h
    cases hb : (looseEqNull v || decide (jsTrim (jsToString v) = "")) with
    | true => rw [hb] at h3; simp at h3
    | false =>
      simp at hb
      exact ⟨v, hg, hb.1, hb.2⟩

lemma checkEntry_ok_elim (i : Nat) (e : JSValue) (h : checkEntry i e = .ok ()) :
    entryOkP e := by
  unfold checkEntry at h
  cases hc : checkField i e "codename" with
  | error e2 => rw [hc] at h; simp at h
  | ok u =>
    cases u
    rw [hc] at h
    exact ⟨checkField_ok_elim i e "codename" hc, checkField_ok_elim i e "description" h⟩

lemma checkEntries_ok_elim : ∀ (ps : List JSValue) (i : Nat),
    checkEntries i ps = .ok () → ∀ e ∈ ps, entryOkP e := by
  intro ps
  induction ps with
  | nil => intro i _ e he; simp at he
  | cons p rest ih =>
    intro i h e he
    unfold checkEntries at h
    cases hc : checkEntry i p with
    | error e2 => rw [hc] at h; simp at h
    | ok u =>
      cases u
      rw [hc] at h
      rcases List.mem_cons.mp he with he1 | he2
      · subst he1; exact checkEntry_ok_elim i e hc
      · exact ih (i + 1) h e he2

lemma validateI18n_ok_entries (i18n : JSValue) (ps : List JSValue)
    (hval : validateI18n i18n = .ok ())
    (hproj : jsGetProp i18n "projects" = .ok (.arr ps)) :
    ∀ e ∈ ps, entryOkP e := by
  unfold validateI18n at hval
  cases hcp : checkPaths i18n requiredPaths with
  | error e2 => rw [hcp] at hval; simp at hval
  | ok u =>
    cases u
    rw [hcp, hproj] at hval
    exact checkEntries_ok_elim ps 0 hval

lemma renderCard_ok (i18n e : JSValue) (h : entryOkP e) :
    ∃ cn ds restCh,
      jsGetProp e "codename" = .ok cn ∧ jsGetProp e "description" = .ok ds ∧
      renderCard i18n e = .ok (Dom.elem "article" [("class", "project-card")]
        (Dom.elem "h3" [("class", "project-name")] [Dom.text (jsToString cn)] ::
         Dom.elem "p" [("class", "project-desc")] [Dom.text (jsToString ds)] :: restCh)) := by
  obtain ⟨⟨cn, hcn, hcnn, _⟩, ⟨ds, hds, hdsn, _⟩⟩ := h
  have henn : looseEqNull e = false := looseEqNull_false_of_getProp_ok e cn "codename" hcn
  obtain ⟨u, hu⟩ := jsGetProp_ok_of_not_null e "url" henn
  cases htr : truthy u with
  | false =>
    refine ⟨cn, ds, [], hcn, hds, ?_⟩
    unfold renderCard
    rw [hcn, hds, hu]
    simp [htr, el, domAppend, hcnn, hdsn, looseEqNull_undefined, looseEqNull_str, jsToString_str]
  | true =>
    have hun : looseEqNull u = false := looseEqNull_false_of_truthy u htr
    refine ⟨cn, ds, [Dom.elem "div" [("class", "project-actions")]
      [el "a" (some "button-link") (getPathD i18n "labels.visit")
        [("href", u), ("target", .str "_blank"), ("rel", .str "noopener noreferrer"),
         ("aria-label", .str (jsToString (getPathD i18n "labels.visit") ++ ": " ++ jsToString cn))]]],
      hcn, hds, ?_⟩
    unfold renderCard
    rw [hcn, hds, hu]
    simp [htr, getPathE_eq i18n "labels.visit", el, domAppend, hcnn, hdsn, hun,
      looseEqNull_undefined, looseEqNull_str, jsToString_str]

lemma renderCards_ok (i18n : JSValue) : ∀ ps : List JSValue,
    (∀ e ∈ ps, entryOkP e) →
    ∃ cards, renderCards i18n ps = .ok cards ∧ List.Forall₂ cardRel ps cards := by
  intro ps
  induction ps with
  | nil => intro _; exact ⟨[], rfl, List.Forall₂.nil⟩
  | cons e rest ih =>
    intro h
    obtain ⟨cn, ds, restCh, hcn, hds, hcard⟩ := renderCard_ok i18n e (h e (by simp))
    obtain ⟨cards, hcards, hrel⟩ := ih (fun x hx => h x (by simp [hx]))
    refine ⟨Dom.elem "article" [("class", "project-card")]
        (Dom.elem "h3" [("class", "project-name")] [Dom.text (jsToString cn)] ::
         Dom.elem "p" [("class", "project-desc")] [Dom.text (jsToString ds)] :: restCh) :: cards,
      ?_, List.Forall₂.cons ⟨cn, ds, restCh, hcn, hds, rfl⟩ hrel⟩
    simp [renderCards, hcard, hcards]

lemma buildHeader_ok (i18n : JSValue) : ∃ hdr, buildHeader i18n = .ok hdr := by
  unfold buildHeader
  rw [getPathE_eq i18n "site.title", getPathE_eq i18n "site.tagline"]
  exact ⟨_, rfl⟩

lemma buildProjectsSection_ok (i18n : JSValue) (ps : List JSValue) (cards : List Dom)
    (hproj : jsGetProp i18n "projects" = .ok (.arr ps))
    (hcards : renderCards i18n ps = .ok cards) :
    ∃ ttl, buildProjectsSection i18n = .ok (Dom.elem "section" [("class", "projects")]
      [ttl, Dom.elem "div" [("class", "projects-grid")] cards]) := by
  refine ⟨el "h2" (some "section-title") (getPathD i18n "sections.projects") [], ?_⟩
  unfold buildProjectsSection
  rw [getPathE_eq i18n "sections.projects", hproj]
  simp [iterableElems, hcards, el, domAppend, looseEqNull_undefined]

lemma buildFooter_ok (i18n : JSValue) (year : Int) (ctext : String)
    (hcopy : getPathD i18n "footer.copyright" = .str ctext) :
    buildFooter i18n year = .ok (Dom.elem "footer" [("class", "site-footer")]
      [Dom.elem "div" [] [Dom.text (jsReplaceFirst ctext yearToken (toString year))]]) := by
  unfold buildFooter
  rw [getPathE_eq i18n "footer.copyright", hcopy]
  simp [el, domAppend, jsToString_str, looseEqNull_undefined, looseEqNull_str]

/-- C2 (amended): a document that passes validation and whose
`footer.copyright` resolves to a string renders successfully: one card per
`projects` entry, in input order (`List.Forall₂`), each card carrying the
entry's codename and description as literal text nodes, and the whole tree is
mounted atomically with `aria-busy` cleared. -/
theorem render_roundtrip_cards (i18n : JSValue) (ps : List JSValue) (ctext : String)
    (year : Int) (st : PageState)
    (hval : validateI18n i18n = .ok ())
    (hproj : jsGetProp i18n "projects" = .ok (.arr ps))
    (hcopy : getPathD i18n "footer.copyright" = .str ctext) :
    ∃ cards, renderCards i18n ps = .ok cards ∧ cards.length = ps.length ∧
      List.Forall₂ cardRel ps cards ∧
      ∃ st1 hdr ttl ftr,
        renderRun i18n year st = (st1, none) ∧
        st1.mountChildren = [Dom.elem "div" [("class", "container")]
          [hdr, Dom.elem "section" [("class", "projects")]
            [ttl, Dom.elem "div" [("class", "projects-grid")] cards], ftr]] ∧
        st1.ariaBusy = some "false" := by
  have hentries := validateI18n_ok_entries i18n ps hval hproj
  obtain ⟨cards, hcards, hrel⟩ := renderCards_ok i18n ps hentries
  obtain ⟨hdr, hhdr⟩ := buildHeader_ok i18n
  obtain ⟨ttl, hsec⟩ := buildProjectsSection_ok i18n ps cards hproj hcards
  have hftr := buildFooter_ok i18n year ctext hcopy
  have hrun : renderRun i18n year st =
      (PageState.mk (jsToString (getPathD i18n "site.title"))
        [Dom.elem "div" [("class", "container")]
          [hdr, Dom.elem "section" [("class", "projects")]
            [ttl, Dom.elem "div" [("class", "projects-grid")] cards],
           Dom.elem "footer" [("class", "site-footer")]
             [Dom.elem "div" [] [Dom.text (jsReplaceFirst ctext yearToken (toString year))]]]]
        (some "false") st.consoleErrors, none) := by
    unfold renderRun buildContainer
    rw [getPathE_eq i18n "site.title", hhdr, hsec, hftr]
    simp [el, domAppend, looseEqNull_undefined]
  exact ⟨cards, hcards, (List.Forall₂.length_eq hrel).symm, hrel,
    _, hdr, ttl, _, hrun, rfl, rfl⟩

/-- Witness for C2 at the sample document (one entry, year 2025). -/
theorem render_roundtrip_cards_witness :
    ∃ cards, renderCards sampleDoc [orbitEntry] = .ok cards ∧ cards.length = [orbitEntry].length ∧
      List.Forall₂ cardRel [orbitEntry] cards ∧
      ∃ st1 hdr ttl ftr,
        renderRun sampleDoc 2025 samplePage = (st1, none) ∧
        st1.mountChildren = [Dom.elem "div" [("class", "container")]
          [hdr, Dom.elem "section" [("class", "projects")]
            [ttl, Dom.elem "div" [("class", "projects-grid")] cards], ftr]] ∧
        st1.ariaBusy = some "false" :=
  render_roundtrip_cards sampleDoc [orbitEntry] "(c) \x7byear\x7d Acme" 2025 samplePage rfl rfl rfl

/-- Counterexample to C2 as stated: this document passes validation and has
one `projects` entry, yet rendering throws at the footer (its copyright is a
number, which has no `.replace`), so no card is ever mounted — the mount
point stays empty. -/
theorem render_nonstring_copyright_cex :
    validateI18n nonStringCopyrightDoc = .ok () ∧
    jsGetProp nonStringCopyrightDoc "projects" =
      .ok (.arr [.obj [("codename", .str "A"), ("description", .str "B")]]) ∧
    renderRun nonStringCopyrightDoc 2025 samplePage =
      (⟨"T", [], some "true", []⟩, some (.typeError "copyrightTmpl.replace is not a function")) ∧
    (⟨"T", [], some "true", []⟩ : PageState).mountChildren = [] :=
  ⟨rfl, rfl, rfl, rfl⟩

/-- C8 (amended): given the entry's fields, a call-to-action link is rendered
exactly when the entry's `url` is truthy; when rendered, its visible label is
`labels.visit`, its `href` is the stringified `url` (the literal value for a
string `url`), it opens with `target="_blank"` and
`rel="noopener noreferrer"`, and its accessible label is
`labels.visit ++ ": " ++ codename`. -/
theorem renderCard_link_when_truthy (i18n project cn ds u visitV : JSValue)
    (hcn : jsGetProp project "codename" = .ok cn) (hcnn : looseEqNull cn = false)
    (hds : jsGetProp project "description" = .ok ds) (hdsn : looseEqNull ds = false)
    (hurl : jsGetProp project "url" = .ok u)
    (hvisit : getPathD i18n "labels.visit" = visitV) (hvn : looseEqNull visitV = false) :
    renderCard i18n project = .ok (Dom.elem "article" [("class", "project-card")]
      (Dom.elem "h3" [("class", "project-name")] [Dom.text (jsToString cn)] ::
       Dom.elem "p" [("class", "project-desc")] [Dom.text (jsToString ds)] ::
       (if truthy u then
          [Dom.elem "div" [("class", "project-actions")]
            [Dom.elem "a" [("class", "button-link"),
               ("href", jsToString u), ("target", "_blank"), ("rel", "noopener noreferrer"),
               ("aria-label", jsToString visitV ++ ": " ++ jsToString cn)]
             [Dom.text (jsToString visitV)]]]
        else []))) := by
  subst hvisit
  unfold renderCard
  rw [hcn, hds, hurl]
  cases htr : truthy u with
  | false => simp [htr, el, domAppend, hcnn, hdsn, looseEqNull_undefined, looseEqNull_str, jsToString_str]
  | true =>
    have hun : looseEqNull u = false := looseEqNull_false_of_truthy u htr
    simp [htr, getPathE_eq i18n "labels.visit", el, domAppend, hcnn, hdsn, hun, hvn,
      looseEqNull_undefined, looseEqNull_str, jsToString_str]

/-- Witness for C8 at Scenario B: entry `Orbit` with `url = "https://x.test"`
and `labels.visit = "Visit"` yields the full link with accessible label
`Visit: Orbit`. -/
theorem renderCard_link_when_truthy_witness :
    renderCard sampleDoc orbitEntry = .ok (Dom.elem "article" [("class", "project-card")]
      [Dom.elem "h3" [("class", "project-name")] [Dom.text "Orbit"],
       Dom.elem "p" [("class", "project-desc")] [Dom.text "A tool"],
       Dom.elem "div" [("class", "project-actions")]
         [Dom.elem "a" [("class", "button-link"),
            ("href", "https://x.test"), ("target", "_blank"), ("rel", "noopener noreferrer"),
            ("aria-label", "Visit: Orbit")]
          [Dom.text "Visit"]]]) :=
  renderCard_link_when_truthy sampleDoc orbitEntry (.str "Orbit") (.str "A tool")
    (.str "https://x.test") (.str "Visit") rfl rfl rfl rfl rfl rfl rfl

/-- Counterexample to C8 as stated: the `url` field is present (an empty
string), yet no call-to-action link is rendered — the card has only the
heading and the description. -/
theorem renderCard_empty_url_cex :
    jsGetProp emptyUrlEntry "url" = .ok (.str "") ∧
    renderCard sampleDoc emptyUrlEntry = .ok (Dom.elem "article" [("class", "project-card")]
      [Dom.elem "h3" [("class", "project-name")] [Dom.text "Orbit"],
       Dom.elem "p" [("class", "project-desc")] [Dom.text "A tool"]]) :=
  ⟨rfl, rfl⟩

/-! ## The bootstrap pipeline on failure (C3) -/

lemma renderRun_error_fields (i18n : JSValue) (year : Int) (st st1 : PageState) (e : JsErr)
    (h : renderRun i18n year st = (st1, some e)) :
    st1.mountChildren = st.mountChildren ∧ st1.ariaBusy = st.ariaBusy ∧
    st1.consoleErrors = st.consoleErrors := by
  unfold renderRun at h
  rw [getPathE_eq i18n "site.title"] at h
  cases hb : buildContainer i18n year with
  | error e2 =>
    rw [hb] at h
    simp only [Prod.mk.injEq] at h
    rcases h with ⟨h1, _⟩
    subst h1
    exact ⟨rfl, rfl, rfl⟩
  | ok c =>
    rw [hb] at h
    simp only [Prod.mk.injEq] at h
    exact absurd h.2 (by simp)

lemma pipelineRun_error_fields (search : Option (List (String × String))) (cfg : JSValue)
    (response : FetchResponse) (year : Int) (st st1 : PageState) (e : JsErr)
    (h : pipelineRun search cfg response year st = (st1, some e)) :
    st1.mountChildren = st.mountChildren ∧ st1.ariaBusy = st.ariaBusy ∧
    st1.consoleErrors = st.consoleErrors := by
  unfold pipelineRun at h
  cases hl : loadI18n cfg (getLanguage search cfg) response with
  | error e2 =>
    rw [hl] at h
    simp only [Prod.mk.injEq] at h
    rcases h with ⟨h1, _⟩
    subst h1
    exact ⟨rfl, rfl, rfl⟩
  | ok i18n =>
    rw [hl] at h
    replace h : (match validateI18n i18n with
        | Except.error e => (st, some e)
        | Except.ok _ => renderRun i18n year st) = (st1, some e) := h
    cases hv : validateI18n i18n with
    | error e2 =>
      rw [hv] at h
      replace h : ((st, some e2) : PageState × Option JsErr) = (st1, some e) := h
      simp only [Prod.mk.injEq] at h
      rcases h with ⟨h1, _⟩
      subst h1
      exact ⟨rfl, rfl, rfl⟩
    | ok u =>
      cases u
      rw [hv] at h
      replace h : renderRun i18n year st = (st1, some e) := h
      exact renderRun_error_fields i18n year st st1 e h

/-- C3: when any stage of the pipeline fails, the mount point's children and
its `aria-busy` attribute are exactly as before the run, and the only effect
is that the error value itself — propagated unchanged from the failing stage,
with no local recovery — is appended to the `console.error` diagnostic
channel. -/
theorem bootstrap_failure_quarantine (search : Option (List (String × String))) (cfg : JSValue)
    (response : FetchResponse) (year : Int) (st : PageState) (e : JsErr)
    (h : (pipelineRun search cfg response year st).2 = some e) :
    (bootstrapRun search cfg response year st).mountChildren = st.mountChildren ∧
    (bootstrapRun search cfg response year st).ariaBusy = st.ariaBusy ∧
    (bootstrapRun search cfg response year st).consoleErrors = st.consoleErrors ++ [e] := by
  rcases hp : pipelineRun search cfg response year st with ⟨st1, o⟩
  rw [hp] at h
  simp only at h
  subst h
  have hf := pipelineRun_error_fields search cfg response year st st1 e hp
  unfold bootstrapRun
  rw [hp]
  refine ⟨hf.1, hf.2.1, ?_⟩
  show st1.consoleErrors ++ [e] = st.consoleErrors ++ [e]
  rw [hf.2.2]

/-- Witness for C3: a 404 response aborts the pipeline; the mount point and
`aria-busy` are untouched and the resource error reaches the console. -/
theorem bootstrap_failure_quarantine_witness :
    (bootstrapRun (some []) .undefined ⟨false, 404, none⟩ 2025 samplePage).mountChildren =
      samplePage.mountChildren ∧
    (bootstrapRun (some []) .undefined ⟨false, 404, none⟩ 2025 samplePage).ariaBusy =
      samplePage.ariaBusy ∧
    (bootstrapRun (some []) .undefined ⟨false, 404, none⟩ 2025 samplePage).consoleErrors =
      samplePage.consoleErrors ++ [.error "Failed to load i18n resource: i18n/en.json (404)"] :=
  bootstrap_failure_quarantine (some []) .undefined ⟨false, 404, none⟩ 2025 samplePage
    (.error "Failed to load i18n resource: i18n/en.json (404)") rfl

/-! ## The loader (C5) -/

/-- C5: the loader targets the location built from the configured base path
(default `"i18n"`), the percent-encoded language code and the `.json` suffix;
a non-ok response fails with the resource error carrying that location and the
status code, and an unparseable body fails with the malformed-resource error
carrying the language code. -/
theorem loadI18n_error_spec (cfg language : JSValue) (response : FetchResponse) :
    resourceUrl cfg language =
      jsToString (i18nBase cfg) ++ "/" ++ encodeURIComponent (jsToString language) ++ ".json" ∧
    i18nBase .undefined = .str "i18n" ∧
    (response.ok = false →
      loadI18n cfg language response = .error (.error
        ("Failed to load i18n resource: " ++ resourceUrl cfg language ++
         " (" ++ toString response.status ++ ")"))) ∧
    (response.ok = true → response.body = none →
      loadI18n cfg language response = .error (.error
        ("Malformed i18n JSON for language: " ++ jsToString language))) := by
  refine ⟨rfl, rfl, ?_, ?_⟩
  · intro hok
    unfold loadI18n
    simp [hok]
  · intro hok hbody
    unfold loadI18n
    simp [hok, hbody]

/-- Witness for C5: Scenario C (a 404 for `fr`) and Scenario D (an
unparseable body for `fr`). -/
theorem loadI18n_error_spec_witness :
    loadI18n .undefined (.str "fr") ⟨false, 404, none⟩ =
      .error (.error "Failed to load i18n resource: i18n/fr.json (404)") ∧
    loadI18n .undefined (.str "fr") ⟨true, 200, none⟩ =
      .error (.error "Malformed i18n JSON for language: fr") :=
  ⟨(loadI18n_error_spec .undefined (.str "fr") ⟨false, 404, none⟩).2.2.1 rfl,
   (loadI18n_error_spec .undefined (.str "fr") ⟨true, 200, none⟩).2.2.2 rfl rfl⟩

/-! ## The language resolver (C6, C7) -/

/-- Counterexample to C6 as stated: for `lang = " fr "` the resolver returns
the trimmed string `"fr"`, not the parameter value `" fr "` unchanged. -/
theorem getLanguage_trim_cex :
    paramsGet [("lang", " fr ")] "lang" = some " fr " ∧
    jsTrim " fr " ≠ "" ∧
    getLanguage (some [("lang", " fr ")]) .undefined = .str "fr" ∧
    JSValue.str "fr" ≠ JSValue.str " fr " := by
  refine ⟨rfl, by decide, rfl, fun h => ?_⟩
  injection h with h2
  exact absurd h2 (by decide)

/-- C6 (amended): whenever the parsed query carries a `lang` value `X` that is
non-empty after trimming, the resolver returns `X` with leading and trailing
whitespace removed — hence `X` itself whenever `X` has none — independently of
any other query content. -/
theorem getLanguage_returns_trimmed (ps : List (String × String)) (cfg : JSValue) (x : String)
    (hx : paramsGet ps "lang" = some x) (hne : jsTrim x ≠ "") :
    getLanguage (some ps) cfg = .str (jsTrim x) := by
  simp only [getLanguage]
  rw [hx]
  simp [hne]

/-- Witness for C6 (amended): a plain `lang=fr` among other query noise. -/
theorem getLanguage_returns_trimmed_witness :
    getLanguage (some [("utm", "%%%"), ("lang", "fr")]) .undefined = .str (jsTrim "fr") ∧
    jsTrim "fr" = "fr" :=
  ⟨getLanguage_returns_trimmed [("utm", "%%%"), ("lang", "fr")] .undefined "fr" rfl (by decide),
   rfl⟩

/-- C7: without a usable `lang` value (query unparseable, parameter absent, or
blank after trimming) the resolver returns the configured-default expression;
in particular the literal `"en"` when no configuration is present, and the
configured `defaultLanguage` when the configuration supplies a non-empty
string for it.  The resolver is a total function — it never fails. -/
theorem getLanguage_fallback_default (search : Option (List (String × String))) (cfg : JSValue)
    (h : usableLang search = false) :
    getLanguage search cfg = jsOrDefault (configGet cfg "defaultLanguage") (.str "en") ∧
    (cfg = .undefined → getLanguage search cfg = .str "en") ∧
    (∀ d : String, truthy cfg = true → jsGetProp cfg "defaultLanguage" = .ok (.str d) →
      d ≠ "" → getLanguage search cfg = .str d) := by
  have hmain : getLanguage search cfg =
      jsOrDefault (configGet cfg "defaultLanguage") (.str "en") := by
    cases search with
    | none => rfl
    | some ps =>
      simp only [usableLang] at h
      simp only [getLanguage]
      cases hp : paramsGet ps "lang" with
      | none =>
        have htr : jsTrim "" = "" := rfl
        simp [htr]
      | some v =>
        rw [hp] at h
        simp at h
        simp [h]
  refine ⟨hmain, ?_, ?_⟩
  · intro hc
    subst hc
    rw [hmain]
    rfl
  · intro d htc hd hdne
    rw [hmain]
    have h1 : configGet cfg "defaultLanguage" = .str d := by
      simp only [configGet, htc, hd]
      simp
    rw [h1]
    have h2 : truthy (.str d) = true := by simp [truthy_str, hdne]
    simp [jsOrDefault, h2]

/-- Witness for C7: an empty query with no configuration yields `"en"`, and a
blank `lang` with a configured default `"de"` yields `"de"`. -/
theorem getLanguage_fallback_default_witness :
    getLanguage (some []) .undefined = .str "en" ∧
    getLanguage (some [("lang", "  ")]) (.obj [("defaultLanguage", .str "de")]) = .str "de" :=
  ⟨(getLanguage_fallback_default (some []) .undefined rfl).2.1 rfl,
   (getLanguage_fallback_default (some [("lang", "  ")]) (.obj [("defaultLanguage", .str "de")])
      rfl).2.2 "de" rfl rfl (by decide)⟩
